import Mathlib

/-!
# Recolon interpreter: a shallow embedding of the evaluator in Lean 4

This file embeds the data model and the evaluation functions of the
`recolon` tree-walking interpreter (Rust sources: `src/environment.rs`,
`src/literal_value.rs`, `src/expr.rs`, `src/interpreter.rs`,
`src/stmt.rs`, `src/types/rcn_struct.rs`) and proves properties of the
embedded code.

Modelling conventions, stated once here:

* Rust's `f32` number payload is modelled as `ℚ` (exact arithmetic).
  Floating-point rounding, `NaN` and signed zero are outside the model;
  no theorem below depends on them.
* `HashMap<String, _>` is modelled as an association list
  (`List (String × _)`) with `alistGet` / `alistInsert` mirroring
  `HashMap::get` / `HashMap::insert` (insert replaces an existing key).
  Iteration over a literal's field map (the only place a map is
  iterated) follows the list order; a `HashMap` iterates in an
  unspecified order, visiting each key once, which the theorems account
  for by quantifying over the list (with distinct keys where relevant).
* `Rc<RefCell<Environment>>` interior mutability is modelled by
  explicit state passing: every evaluation step returns the updated
  environment.  `environment.clone()` at a call boundary copies the top
  frame and shares the rest; the model passes the whole chain by value
  and discards the callee's final state, which coincides with the code
  on executions that do not assign through the caller's chain from
  inside a call (none of the programs appearing in theorems below do).
* A Rust `panic!` / `todo!` / failed `unwrap` is a distinct outcome
  (`RErr.panicked`) from a recoverable `Result::Err` (`RErr.err`),
  because `interpreter.rs` catches `Err` at the function-call boundary
  but a panic aborts the process.
* Recursion through the heap (statement lists executing function
  bodies) is made total with a fuel parameter; exhausted fuel is the
  outcome `RErr.timeout`, which corresponds to no behaviour of the code
  and appears in no theorem's conclusion.
-/

namespace Recolon

/-- Token kinds, restricted to the operator tokens that
`Expr::evaluate` in `src/expr.rs` inspects (`src/scanner.rs` defines
the full enum; the scanner and parser are not modelled). -/
inductive TokenType where
  | Plus | Minus | Slash | Star
  | Bang | BangEqual | EqualEqual
  | Greater | GreaterEqual | Less | LessEqual
  | And | Or
  deriving DecidableEq, Repr

mutual

/-- Runtime values, from `enum LiteralValue` in `src/literal_value.rs`.
The `fun` payload of `Callable` (`Rc<dyn Fn>`) is defunctionalised as
`FunImpl`: the interpreter only ever builds the `clock` builtin and
closures over a parameter list and a statement body. -/
inductive LiteralValue where
  | Array (elements : List LiteralValue)
  | Callable (name : String) (arity : Int) (impl : FunImpl)
  | Number (x : ℚ)
  | StringValue (s : String)
  | True
  | False
  | Nil
  | StructDef (d : StructDefinition)
  | StructInst (i : StructInstance)

/-- Closure bodies a `Callable` can carry: the `clock` builtin defined
in `Interpreter::new`, or the closure built by the `Stmt::FuncStmt` arm
of `Interpreter::interpret` capturing `parameters` and `body`. -/
inductive FunImpl where
  | clock
  | userFun (params : List String) (body : List Stmt)

/-- From `struct StructDefinition` in `src/types/rcn_struct.rs`:
fields map names to declared (unevaluated) expressions. -/
inductive StructDefinition where
  | mk (name : String) (fields : List (String × Expr))

/-- From `struct StructInstance` in `src/types/rcn_struct.rs`:
fields map names to evaluated values. -/
inductive StructInstance where
  | mk (name : String) (fields : List (String × LiteralValue))

/-- Expressions, from `enum Expr` in `src/expr.rs`.  `Token` payloads
are reduced to the data `evaluate` reads: the lexeme for variable and
assignment names, the `TokenType` for operators.  The `FieldAccess`,
`MethodCall` and `PreFunction` constructors (struct field reads, array
methods, `math`/`io` builtins) are outside the fragment this
development reasons about and are omitted. -/
inductive Expr where
  | Array (elements : List Expr)
  | Assign (name : String) (value : Expr)
  | Binary (left : Expr) (operator : TokenType) (right : Expr)
  | Call (callee : Expr) (arguments : List Expr)
  | Grouping (expression : Expr)
  | Index (array : Expr) (index : Expr)
  | Literal (value : LiteralValue)
  | Logical (left : Expr) (operator : TokenType) (right : Expr)
  | StructInstE (name : String) (fields : List (String × Expr))
  | Unary (operator : TokenType) (right : Expr)
  | Variable (name : String)

/-- Statements, from `enum Stmt` in `src/stmt.rs` (the `StructStmt`
constructor is present in the enum; see `interpret` for how the
interpreter treats it). -/
inductive Stmt where
  | Expression (expression : Expr)
  | Log (expression : Expr)
  | Err (expression : Expr)
  | Var (name : String) (initializer : Expr)
  | Block (statements : List Stmt)
  | IfStmt (predicate : Expr) (thenS : Stmt) (elifs : List (Expr × Stmt)) (els : Option Stmt)
  | WhileStmt (condition : Expr) (body : Stmt)
  | ReturnStmt (value : Option Expr)
  | LoopStmt (body : Stmt)
  | FuncStmt (name : String) (parameters : List String) (body : List Stmt)
  | StructStmt (name : String) (params : List (String × Expr))

end

/-- Association-list model of `HashMap::get`. -/
def alistGet {α : Type} : List (String × α) → String → Option α
  | [], _ => none
  | (k, v) :: rest, n => if k = n then some v else alistGet rest n

/-- Association-list model of `HashMap::insert`: replaces the binding
of an existing key, otherwise appends. -/
def alistInsert {α : Type} : List (String × α) → String → α → List (String × α)
  | [], n, v => [(n, v)]
  | (k, w) :: rest, n, v =>
      if k = n then (k, v) :: rest else (k, w) :: alistInsert rest n v

/-- Environments, from `struct Environment` in `src/environment.rs`:
a `values` map, a `constants` map, and an optional enclosing scope.
The Rust field `enclosing : Option<Rc<RefCell<Environment>>>` is
modelled by the two constructors: `root` is an environment with
`enclosing == None`, `child` one with `enclosing == Some(..)` (the
shared mutable cell is handled by state passing; see the file
header). -/
inductive Environment where
  | root (values : List (String × LiteralValue)) (constants : List (String × Bool))
  | child (values : List (String × LiteralValue)) (constants : List (String × Bool))
          (enclosing : Environment)

namespace Environment

/-- Field accessor for `values`. -/
def values : Environment → List (String × LiteralValue)
  | .root vs _ => vs
  | .child vs _ _ => vs

/-- Field accessor for `constants`. -/
def constants : Environment → List (String × Bool)
  | .root _ cs => cs
  | .child _ cs _ => cs

/-- Field accessor for `enclosing`. -/
def enclosing : Environment → Option Environment
  | .root _ _ => none
  | .child _ _ enc => some enc

/-- `Environment::new`: no bindings, no enclosing scope. -/
def new : Environment := .root [] []

/-- `Environment::new_with_enclosing`. -/
def new_with_enclosing (enc : Environment) : Environment := .child [] [] enc

/-- `Environment::define`: inserts into `values`, and additionally
marks the name in `constants` when `is_const` is set (and only then —
a non-const redefinition leaves an existing marker in place). -/
def define : Environment → String → LiteralValue → Bool → Environment
  | .root vs cs, name, value, is_const =>
      .root (alistInsert vs name value)
            (if is_const then alistInsert cs name true else cs)
  | .child vs cs enc, name, value, is_const =>
      .child (alistInsert vs name value)
             (if is_const then alistInsert cs name true else cs)
             enc

/-- `Environment::get`: looks in the current scope's `values`, then
recurses into the enclosing scope; `none` when no scope binds the
name. -/
def get : Environment → String → Option LiteralValue
  | .root vs _, name =>
      match alistGet vs name with
      | some v => some v
      | none => none
  | .child vs _ enc, name =>
      match alistGet vs name with
      | some v => some v
      | none => get enc name

/-- `Environment::assign`: fails at once if the current scope's
`constants` marks the name; overwrites in place if the current scope's
`values` binds it; otherwise delegates to the enclosing scope; fails
when the chain is exhausted.  Returns the success flag together with
the updated chain (the Rust method mutates in place and returns
`bool`). -/
def assign : Environment → String → LiteralValue → Bool × Environment
  | .root vs cs, name, value =>
      match alistGet cs name with
      | some true => (false, .root vs cs)
      | _ =>
          if (alistGet vs name).isSome then
            (true, .root (alistInsert vs name value) cs)
          else
            (false, .root vs cs)
  | .child vs cs enc, name, value =>
      match alistGet cs name with
      | some true => (false, .child vs cs enc)
      | _ =>
          if (alistGet vs name).isSome then
            (true, .child (alistInsert vs name value) cs enc)
          else
            let r := assign enc name value
            (r.1, .child vs cs r.2)

/-- Name is bound (in `values`) in some scope of the chain; `get`
succeeds exactly on these names. -/
def boundAnywhere : Environment → String → Bool
  | .root vs _, name => (alistGet vs name).isSome
  | .child vs _ enc, name => (alistGet vs name).isSome || boundAnywhere enc name

/-- The scope `assign` reaches first that stops its search marks the
name constant: the search passes scopes whose `constants` and `values`
both lack the name, and the first scope it cannot pass has the
constant marker (checked before `values`, exactly as `assign` does). -/
def reachesConst : Environment → String → Bool
  | .root _ cs, name =>
      match alistGet cs name with
      | some true => true
      | _ => false
  | .child vs cs enc, name =>
      match alistGet cs name with
      | some true => true
      | _ =>
          if (alistGet vs name).isSome then false
          else reachesConst enc name

end Environment

/-- Outcomes a Rust computation step can have besides a value:
a recoverable `Result::Err` carrying a message, an unrecoverable
process abort (`panic!`, `todo!`, failed `unwrap`/index), or exhausted
fuel (an artefact of the embedding, never a behaviour of the code). -/
inductive RErr where
  | err (msg : String)
  | panicked (msg : String)
  | timeout
  deriving DecidableEq, Repr

/-- Result monad of the embedding. -/
abbrev Res (α : Type) := Except RErr α

namespace LiteralValue

/-- `impl PartialEq for LiteralValue` in `src/literal_value.rs`:
`Number`/`StringValue`/`True`/`False`/`Nil` compare structurally,
`Callable` compares by name and arity only (the behaviour is ignored),
and every other pair — including `Array` against `Array`,
`StructDef` against `StructDef` and `StructInst` against
`StructInst` — falls into the catch-all arm and is `false`. -/
def lvEq : LiteralValue → LiteralValue → Bool
  | .Number x, .Number y => x == y
  | .Callable name arity _, .Callable name2 arity2 _ => name == name2 && arity == arity2
  | .StringValue x, .StringValue y => x == y
  | .True, .True => true
  | .False, .False => true
  | .Nil, .Nil => true
  | _, _ => false

/-- Discriminant of a value's variant, used to state which comparisons
cross variants. -/
def variantTag : LiteralValue → Nat
  | .Array _ => 0
  | .Callable _ _ _ => 1
  | .Number _ => 2
  | .StringValue _ => 3
  | .True => 4
  | .False => 5
  | .Nil => 6
  | .StructDef _ => 7
  | .StructInst _ => 8

/-- `LiteralValue::check_bool`. -/
def check_bool (b : Bool) : LiteralValue :=
  if b then .True else .False

/-- `LiteralValue::is_falsy`: `Number` is falsy-negated by zero test,
`StringValue` by emptiness, booleans flip, `Nil` maps to `False`;
`Callable` panics with its dedicated message, and the remaining
variants (`Array`, `StructDef`, `StructInst`) hit `todo!()`, which
also panics. -/
def is_falsy : LiteralValue → Res LiteralValue
  | .Number x => .ok (if x == 0 then .True else .False)
  | .StringValue s => .ok (if s.length == 0 then .True else .False)
  | .True => .ok .False
  | .False => .ok .True
  | .Nil => .ok .False
  | .Callable _ _ _ => .error (.panicked "Can not use callable as falsy value")
  | _ => .error (.panicked "not yet implemented")

/-- `LiteralValue::is_truthy`, dual to `is_falsy` with the same
panicking variants. -/
def is_truthy : LiteralValue → Res LiteralValue
  | .Number x => .ok (if x == 0 then .False else .True)
  | .StringValue s => .ok (if s.length == 0 then .False else .True)
  | .True => .ok .True
  | .False => .ok .False
  | .Nil => .ok .False
  | .Callable _ _ _ => .error (.panicked "Can not use callable as truthy value")
  | _ => .error (.panicked "not yet implemented")

/-- `LiteralValue::to_type`: the type tag used by struct field
validation; `Array`, `Callable` and `StructInst` fall into the
`todo!()` arm and panic. -/
def to_type : LiteralValue → Res String
  | .Number _ => .ok "Number"
  | .StringValue _ => .ok "String"
  | .True => .ok "Bool"
  | .False => .ok "Bool"
  | .Nil => .ok "nil"
  | .StructDef _ => .ok "Struct"
  | _ => .error (.panicked "not yet implemented")

end LiteralValue

/-- Rust `f32::to_string`, as used by the `String + Number`
coercion: an integral float prints with no decimal point
(`5.0f32.to_string() == "5"`).  A non-integral `ℚ` has no exact `f32`
counterpart; the fallback prints the rational and no theorem relies
on it. -/
def numToString (q : ℚ) : String :=
  if q.den = 1 then toString q.num else toString q

/-- Rust `as usize` applied to an `f32` (the `Expr::Index` arm):
truncation toward zero, saturating at `0` below and `usize::MAX`
above; `NaN` (absent from `ℚ`) also casts to `0`. -/
def f32AsUsize (q : ℚ) : Nat :=
  if q ≤ 0 then 0 else min (Int.toNat q.floor) (2 ^ 64 - 1)

namespace StructDefinition

/-- Field accessor for `name`. -/
def name : StructDefinition → String
  | .mk n _ => n

/-- Field accessor for `fields`. -/
def fields : StructDefinition → List (String × Expr)
  | .mk _ fs => fs

end StructDefinition

namespace StructInstance

/-- Field accessor for `name`. -/
def name : StructInstance → String
  | .mk n _ => n

/-- Field accessor for `fields`. -/
def fields : StructInstance → List (String × LiteralValue)
  | .mk _ fs => fs

end StructInstance

/-- The `for field_name in struct_def.fields.keys()` check at the end
of the `Expr::StructInst` arm: errors at the first definition field
absent from the evaluated field map. -/
def missingFieldCheck : List (String × Expr) → List (String × LiteralValue) → Res Unit
  | [], _ => .ok ()
  | (k, _) :: rest, evaluated =>
      if (alistGet evaluated k).isSome then missingFieldCheck rest evaluated
      else .error (.err ("Missing field '" ++ k ++ "' in struct instantiation"))

open LiteralValue (lvEq is_falsy is_truthy check_bool to_type)

mutual

/-- `Expr::evaluate` from `src/expr.rs`, arm by arm in source order
(the omitted `FieldAccess` / `PreFunction` / `MethodCall` constructors
have no counterpart here).  The environment is threaded through
because the Rust code mutates it through a shared `RefCell`. -/
def evaluate : Nat → Expr → Environment → Res (LiteralValue × Environment)
  | 0, _, _ => .error .timeout
  | fuel + 1, e, env =>
    match e with
    | .Array elements => do
        let (vals, env1) ← evalList fuel elements env
        .ok (.Array vals, env1)
    | .Assign name value => do
        let (new_value, env1) ← evaluate fuel value env
        -- a struct value is re-built into a fresh instance with the
        -- same name and fields before being stored
        let new_value :=
          match new_value with
          | .StructInst i => LiteralValue.StructInst (.mk i.name i.fields)
          | v => v
        let r := env1.assign name new_value
        if r.1 then .ok (new_value, r.2)
        else .error (.err ("Variable " ++ name ++ " has not been declared."))
    | .Variable name =>
        match env.get name with
        | some v => .ok (v, env)
        | none => .error (.err ("Undefined variable or function '" ++ name ++ "'."))
    | .Logical left operator right =>
        match operator with
        | .Or => do
            let (lv, env1) ← evaluate fuel left env
            let lhs_true ← is_truthy lv
            let (rv, env2) ← evaluate fuel right env1
            let rhs_true ← is_truthy rv
            if lvEq lhs_true .True then .ok (.True, env2)
            else if lvEq rhs_true .True then .ok (.True, env2)
            else .ok (.False, env2)
        | .And => do
            let (lv, env1) ← evaluate fuel left env
            let lhs_true ← is_truthy lv
            let (rv, env2) ← evaluate fuel right env1
            let rhs_true ← is_truthy rv
            if lvEq lhs_true .False then .ok (.False, env2)
            else if lvEq rhs_true .True then .ok (.True, env2)
            else .ok (.False, env2)
        | _ => .error (.err "Invalid token in logical expression")
    | .Literal value => .ok (value, env)
    | .Grouping expression => evaluate fuel expression env
    | .Unary operator right => do
        let (r, env1) ← evaluate fuel right env
        match r, operator with
        | .Number x, .Minus => .ok (.Number (-x), env1)
        | _, .Minus => do
            -- the error message formats `right.to_type()`, which itself
            -- panics on the variants `to_type` leaves to `todo!()`
            let t ← to_type r
            .error (.err ("Cannot use - for " ++ t))
        | any, .Bang => do
            let v ← is_falsy any
            .ok (v, env1)
        | _, _ => .error (.err "is not a valid operator.")
    | .Binary left operator right => do
        let (l, env1) ← evaluate fuel left env
        let (r, env2) ← evaluate fuel right env1
        match l, operator, r with
        | .Number x, .Plus, .Number y => .ok (.Number (x + y), env2)
        | .StringValue s1, .Plus, .StringValue s2 => .ok (.StringValue (s1 ++ s2), env2)
        | .StringValue s1, .Plus, .Number x => .ok (.StringValue (s1 ++ numToString x), env2)
        | .Number x, .Plus, .StringValue s1 => .ok (.StringValue (numToString x ++ s1), env2)
        | .Number x, .Minus, .Number y => .ok (.Number (x - y), env2)
        | .StringValue _, .Minus, .StringValue _ => .error (.err "NaN")
        | .StringValue _, .Minus, .Number _ => .error (.err "NaN")
        | .Number _, .Minus, .StringValue _ => .error (.err "NaN")
        | .Number x, .Slash, .Number y => .ok (.Number (x / y), env2)
        | .Number x, .Star, .Number y => .ok (.Number (x * y), env2)
        | .Number x, .Greater, .Number y => .ok (check_bool (decide (x > y)), env2)
        | .StringValue s1, .Greater, .StringValue s2 => .ok (check_bool (decide (s1 > s2)), env2)
        | .Number x, .GreaterEqual, .Number y => .ok (check_bool (decide (x ≥ y)), env2)
        | .StringValue s1, .GreaterEqual, .StringValue s2 => .ok (check_bool (decide (s1 ≥ s2)), env2)
        | .Number x, .Less, .Number y => .ok (check_bool (decide (x < y)), env2)
        | .StringValue s1, .Less, .StringValue s2 => .ok (check_bool (decide (s1 < s2)), env2)
        | .Number x, .LessEqual, .Number y => .ok (check_bool (decide (x ≤ y)), env2)
        | .StringValue s1, .LessEqual, .StringValue s2 => .ok (check_bool (decide (s1 ≤ s2)), env2)
        | x, .BangEqual, y => .ok (check_bool (!lvEq x y), env2)
        | x, .EqualEqual, y => .ok (check_bool (lvEq x y), env2)
        | _, _, _ => .error (.err "has not been implemented")
    | .Call callee arguments => do
        let (callable, env1) ← evaluate fuel callee env
        match callable with
        | .Callable name arity impl =>
            -- `arity.try_into().unwrap()`: `i32 -> usize` fails, and the
            -- `unwrap` panics, exactly when the arity is negative
            if arity < 0 then .error (.panicked "try_into failed on negative arity")
            else if arguments.length ≠ arity.toNat then
              .error (.err ("Callable " ++ name ++ " expected arguments"))
            else do
              let (arg_vals, env2) ← evalList fuel arguments env1
              let v ← applyFun fuel impl env2 arg_vals
              .ok (v, env2)
        | _ => .error (.err "is not callable")
    | .StructInstE name fields =>
        match env.get name with
        | some (.StructDef d) => do
            let (evaluated_fields, env1) ← structFieldsLoop fuel fields d env []
            let _ ← missingFieldCheck d.fields evaluated_fields
            .ok (.StructInst (.mk d.name evaluated_fields), env1)
        | _ => .error (.err ("Struct definition '" ++ name ++ "' not found"))
    | .Index array index => do
        let (array_value, env1) ← evaluate fuel array env
        let (index_value, env2) ← evaluate fuel index env1
        match array_value with
        | .Array arr =>
            match index_value with
            | .Number idxNum =>
                let idx := f32AsUsize idxNum
                if h : idx < arr.length then .ok (arr.get ⟨idx, h⟩, env2)
                else .error (.err "Array index out of bounds")
            | _ => .error (.err "Array index must be a number")
        | _ => .error (.err "Attempt to index a non-array value")

/-- Left-to-right evaluation of an expression list (the element loop
of the `Expr::Array` arm and the argument loop of the `Expr::Call`
arm), threading the environment. -/
def evalList : Nat → List Expr → Environment → Res (List LiteralValue × Environment)
  | 0, _, _ => .error .timeout
  | _ + 1, [], env => .ok ([], env)
  | fuel + 1, e :: rest, env => do
      let (v, env1) ← evaluate fuel e env
      let (vs, env2) ← evalList fuel rest env1
      .ok (v :: vs, env2)

/-- The `for (field_name, expr) in fields` loop of the
`Expr::StructInst` arm: reject a supplied name the definition lacks;
evaluate the supplied expression, then the declared expression, in the
current environment; reject a type-tag mismatch; record the value. -/
def structFieldsLoop : Nat → List (String × Expr) → StructDefinition → Environment →
    List (String × LiteralValue) → Res (List (String × LiteralValue) × Environment)
  | 0, _, _, _, _ => .error .timeout
  | _ + 1, [], _, env, acc => .ok (acc, env)
  | fuel + 1, (field_name, expr) :: rest, d, env, acc =>
      match alistGet d.fields field_name with
      | some expected_expr => do
          let (value, env1) ← evaluate fuel expr env
          let (expected_value, env2) ← evaluate fuel expected_expr env1
          let tv ← to_type value
          let te ← to_type expected_value
          if tv ≠ te then
            .error (.err ("Type mismatch for field '" ++ field_name ++ "'"))
          else
            structFieldsLoop fuel rest d env2 (alistInsert acc field_name value)
      | none =>
          .error (.err ("Field '" ++ field_name ++ "' does not exist in struct definition '"
                        ++ d.name ++ "'"))

/-- Invocation of a `Callable`'s payload, from `clock_impl` and the
`fun_impl` closure of the `Stmt::FuncStmt` arm of
`Interpreter::interpret`: bind the parameters in a fresh scope over
the caller's environment, run the body statements — a statement
`Err` makes the call return `Nil` — and finally produce the value of
the last body statement when it is an `Expression` (re-evaluating it),
`Nil` otherwise. -/
def applyFun : Nat → FunImpl → Environment → List LiteralValue → Res LiteralValue
  | 0, _, _, _ => .error .timeout
  | _ + 1, .clock, _, _ =>
      -- `clock_impl` reads the system time; the model fixes the
      -- (unspecified) reading at zero, and no theorem calls `clock`
      .ok (.Number 0)
  | fuel + 1, .userFun params body, parentEnv, args =>
      -- the parameter loop iterates over `args` and indexes `params`,
      -- panicking when there are more arguments than parameters
      if params.length < args.length then .error (.panicked "index out of bounds")
      else
        let callEnv := (params.zip args).foldl
          (fun e pa => e.define pa.1 pa.2 false)
          (Environment.new_with_enclosing parentEnv)
        match interpret fuel body callEnv with
        | .error (.err _) => .ok .Nil
        | .error e => .error e
        | .ok envAfter =>
            -- `body[body.len() - 1]`: an empty body panics on the index
            match body.getLast? with
            | none => .error (.panicked "index out of bounds")
            | some (.Expression e) =>
                match evaluate fuel e envAfter with
                | .ok (v, _) => .ok v
                | .error (.err m) => .error (.panicked m)
                | .error er => .error er
            | some _ => .ok .Nil

/-- `Interpreter::interpret` from `src/interpreter.rs`: runs the
statements in order on the threaded environment; the first error
aborts the remaining statements. -/
def interpret : Nat → List Stmt → Environment → Res Environment
  | 0, _, _ => .error .timeout
  | _ + 1, [], env => .ok env
  | fuel + 1, stmt :: rest, env =>
      match stmt with
      | .Expression expression => do
          let (_, env1) ← evaluate fuel expression env
          interpret fuel rest env1
      | .Log expression => do
          -- the printed output is not modelled
          let (_, env1) ← evaluate fuel expression env
          interpret fuel rest env1
      | .Err expression => do
          let (_, env1) ← evaluate fuel expression env
          interpret fuel rest env1
      | .Var name initializer => do
          let (value, env1) ← evaluate fuel initializer env
          -- the interpreter's `define(name, value)` call sets no
          -- constant marker
          interpret fuel rest (env1.define name value false)
      | .Block statements => do
          -- a fresh environment whose enclosing scope is the current
          -- one; afterwards the old environment — mutated through the
          -- shared enclosing pointer — is restored
          let envB ← interpret fuel statements (Environment.new_with_enclosing env)
          match envB.enclosing with
          | some outer => interpret fuel rest outer
          | none => interpret fuel rest env
      | .IfStmt predicate thenS elifs els => do
          let (truth_value, env1) ← evaluate fuel predicate env
          let t ← is_truthy truth_value
          if lvEq t .True then do
            let env2 ← interpret fuel [thenS] env1
            interpret fuel rest env2
          else do
            let env2 ← runElifs fuel elifs els env1
            interpret fuel rest env2
      | .WhileStmt condition body => do
          let env1 ← whileLoop fuel condition body env
          interpret fuel rest env1
      | .LoopStmt body => do
          let env1 ← loopLoop fuel body env
          interpret fuel rest env1
      | .ReturnStmt value =>
          -- the arm evaluates the optional expression (`Nil` when
          -- absent), binds it to the local `return_value`, and does
          -- nothing further with it: no control-flow signal exists in
          -- this interpreter, and the following statements run
          (match value with
          | some expr => do
              let (_, env1) ← evaluate fuel expr env
              interpret fuel rest env1
          | none => interpret fuel rest env)
      | .FuncStmt name parameters body =>
          let callable := LiteralValue.Callable name (parameters.length : Int)
            (.userFun parameters body)
          interpret fuel rest (env.define name callable false)
      | .StructStmt _ _ =>
          -- the `match` in `Interpreter::interpret` has no arm for
          -- `Stmt::StructStmt` in this snapshot of the source
          .error (.panicked "non-exhaustive match on Stmt")

/-- The `elif` chain of the `Stmt::IfStmt` arm: the first truthy
predicate runs its block and stops; otherwise the `else` block, if
any, runs. -/
def runElifs : Nat → List (Expr × Stmt) → Option Stmt → Environment → Res Environment
  | 0, _, _, _ => .error .timeout
  | fuel + 1, [], els, env =>
      match els with
      | some els_stmt => interpret fuel [els_stmt] env
      | none => .ok env
  | fuel + 1, (elif_predicate, elif_body) :: restElifs, els, env => do
      let (tv, env1) ← evaluate fuel elif_predicate env
      let t ← is_truthy tv
      if lvEq t .True then interpret fuel [elif_body] env1
      else runElifs fuel restElifs els env1

/-- The `Stmt::WhileStmt` loop: evaluate the condition, stop when its
truthiness is not `True`, otherwise run the body and iterate. -/
def whileLoop : Nat → Expr → Stmt → Environment → Res Environment
  | 0, _, _, _ => .error .timeout
  | fuel + 1, condition, body, env => do
      let (flag, env1) ← evaluate fuel condition env
      let t ← is_truthy flag
      if lvEq t .True then do
        let env2 ← interpret fuel [body] env1
        whileLoop fuel condition body env2
      else .ok env1

/-- The `Stmt::LoopStmt` loop: runs the body forever (it can only
leave by error). -/
def loopLoop : Nat → Stmt → Environment → Res Environment
  | 0, _, _ => .error .timeout
  | fuel + 1, body, env => do
      let env1 ← interpret fuel [body] env
      loopLoop fuel body env1

end

/-! ## Lemmas about the association-list map operations -/

theorem alistGet_insert_self {α : Type} (l : List (String × α)) (n : String) (v : α) :
    alistGet (alistInsert l n v) n = some v := by
  induction l with
  | nil => simp [alistInsert, alistGet]
  | cons hd tl ih =>
      obtain ⟨k, w⟩ := hd
      by_cases hk : k = n
      · subst hk; simp [alistInsert, alistGet]
      · simp [alistInsert, alistGet, hk, ih]

theorem alistGet_insert_ne {α : Type} (l : List (String × α)) (n m : String) (v : α)
    (h : m ≠ n) : alistGet (alistInsert l n v) m = alistGet l m := by
  induction l with
  | nil => simp [alistInsert, alistGet, Ne.symm h]
  | cons hd tl ih =>
      obtain ⟨k, w⟩ := hd
      by_cases hk : k = n
      · subst hk
        simp only [alistInsert, if_pos rfl]
        simp [alistGet, Ne.symm h]
      · simp [alistInsert, alistGet, hk, ih]

theorem alistGet_insert_isSome {α : Type} (l : List (String × α)) (n m : String) (v : α) :
    (alistGet (alistInsert l n v) m).isSome ↔ (m = n ∨ (alistGet l m).isSome) := by
  by_cases h : m = n
  · subst h; simp [alistGet_insert_self]
  · simp [alistGet_insert_ne l n m v h, h]

theorem alistGet_isSome_iff_mem {α : Type} (l : List (String × α)) (n : String) :
    (alistGet l n).isSome ↔ n ∈ l.map Prod.fst := by
  induction l with
  | nil => simp [alistGet]
  | cons hd tl ih =>
      obtain ⟨k, w⟩ := hd
      by_cases hk : k = n
      · subst hk; simp [alistGet]
      · simp [alistGet, hk, ih, Ne.symm hk]

/-! ## Lemmas about `Environment::get` and `Environment::assign` -/

namespace Environment

/-- Helper: a `false` `isSome` test means the option is `none`. -/
theorem isSome_false_eq_none {α : Type} {o : Option α} (h : o.isSome = false) : o = none := by
  cases o <;> simp_all

/-- `get` on a chain binding the name nowhere returns `none`. -/
theorem get_eq_none_of_not_bound (env : Environment) (n : String)
    (h : env.boundAnywhere n = false) : env.get n = none := by
  induction env with
  | root vs cs =>
      simp only [boundAnywhere] at h
      simp [get, isSome_false_eq_none h]
  | child vs cs enc ih =>
      simp only [boundAnywhere, Bool.or_eq_false_iff] at h
      simp [get, isSome_false_eq_none h.1, ih h.2]

/-- `assign` on a chain whose first blocking scope holds a constant
marker fails and leaves the whole chain untouched. -/
theorem assign_of_reachesConst (env : Environment) (n : String) (v : LiteralValue)
    (h : env.reachesConst n = true) : env.assign n v = (false, env) := by
  induction env with
  | root vs cs =>
      simp only [reachesConst] at h
      match hc : alistGet cs n with
      | some true => simp [assign, hc]
      | some false => rw [hc] at h; simp at h
      | none => rw [hc] at h; simp at h
  | child vs cs enc ih =>
      simp only [reachesConst] at h
      match hc : alistGet cs n with
      | some true => simp [assign, hc]
      | some false =>
          rw [hc] at h
          simp only at h
          by_cases hv : (alistGet vs n).isSome
          · rw [if_pos hv] at h; simp at h
          · rw [if_neg hv] at h
            simp [assign, hc, hv, ih h]
      | none =>
          rw [hc] at h
          simp only at h
          by_cases hv : (alistGet vs n).isSome
          · rw [if_pos hv] at h; simp at h
          · rw [if_neg hv] at h
            simp [assign, hc, hv, ih h]

/-- `assign` on a chain binding the name in no scope fails and leaves
the chain untouched (it fails through the constant check when a stray
marker exists, through chain exhaustion otherwise). -/
theorem assign_of_not_bound (env : Environment) (n : String) (v : LiteralValue)
    (h : env.boundAnywhere n = false) : env.assign n v = (false, env) := by
  induction env with
  | root vs cs =>
      simp only [boundAnywhere] at h
      match hc : alistGet cs n with
      | some true => simp [assign, hc]
      | some false => simp [assign, hc, h]
      | none => simp [assign, hc, h]
  | child vs cs enc ih =>
      simp only [boundAnywhere, Bool.or_eq_false_iff] at h
      match hc : alistGet cs n with
      | some true => simp [assign, hc]
      | some false => simp [assign, hc, h.1, ih h.2]
      | none => simp [assign, hc, h.1, ih h.2]

end Environment

/-! ## Claim C2: define/get, shadowing, chained lookup -/

/-- C2: on every environment, `define n v` followed by `get n` returns
`v` (the definition lands in the current scope, which `get` consults
first, so an enclosing binding of `n` is shadowed); on a chained
environment whose inner scope does not bind `n`, `get n` equals
`get n` on the outer environment; and `get` returns `none` when no
scope in the chain binds the name. -/
theorem C2_define_get_shadowing :
    (∀ (env : Environment) (n : String) (v : LiteralValue) (c : Bool),
        (env.define n v c).get n = some v) ∧
    (∀ (vs : List (String × LiteralValue)) (cs : List (String × Bool))
        (outer : Environment) (n : String),
        alistGet vs n = none →
        Environment.get (.child vs cs outer) n = outer.get n) ∧
    (∀ (env : Environment) (n : String),
        env.boundAnywhere n = false → env.get n = none) := by
  refine ⟨?_, ?_, ?_⟩
  · intro env n v c
    cases env <;> simp [Environment.define, Environment.get, alistGet_insert_self]
  · intro vs cs outer n h
    simp [Environment.get, h]
  · intro env n h
    exact Environment.get_eq_none_of_not_bound env n h

/-- Witness for C2, exercising the chained-lookup conjunct at a
concrete environment (the inner scope empty, the outer binding
`"y"`). -/
theorem C2_define_get_shadowing_witness :
    Environment.get (.child [] [] (.root [("y", .Number 7)] [])) "y" =
      Environment.get (.root [("y", .Number 7)] []) "y" :=
  C2_define_get_shadowing.2.1 [] [] (.root [("y", .Number 7)] []) "y" rfl

/-! ## Claim C3: assignment to constants and to unbound names -/

/-- Concrete environment for the C3 witness: `x` defined constant
with value `5` in a root scope. -/
def envC3 : Environment := Environment.new.define "x" (.Number 5) true

/-- C3: when the scope that `assign` reaches first marks the name
constant, `assign` fails returning `false` and the whole chain — in
particular the binding's value seen by `get` — is unchanged; `assign`
to a name bound in no scope of the chain also fails and changes no
binding. -/
theorem C3_assign_constant_or_unbound_fails :
    (∀ (env : Environment) (n : String) (v : LiteralValue),
        env.reachesConst n = true → env.assign n v = (false, env)) ∧
    (∀ (env : Environment) (n : String) (v : LiteralValue),
        env.reachesConst n = true → ((env.assign n v).2).get n = env.get n) ∧
    (∀ (env : Environment) (n : String) (v : LiteralValue),
        env.boundAnywhere n = false → env.assign n v = (false, env)) :=
  ⟨fun env n v h => Environment.assign_of_reachesConst env n v h,
   fun env n v h => by rw [Environment.assign_of_reachesConst env n v h],
   fun env n v h => Environment.assign_of_not_bound env n v h⟩

/-- Witness for C3: assigning `10` to the constant `x = 5` fails,
and `get` afterwards still yields `5`. -/
theorem C3_assign_constant_or_unbound_fails_witness :
    envC3.assign "x" (.Number 10) = (false, envC3) ∧
    ((envC3.assign "x" (.Number 10)).2).get "x" = some (.Number 5) :=
  ⟨C3_assign_constant_or_unbound_fails.1 envC3 "x" (.Number 10) rfl,
   Eq.trans (C3_assign_constant_or_unbound_fails.2.1 envC3 "x" (.Number 10) rfl) rfl⟩

/-! ## Claim C10: a constant marker survives redefinition -/

/-- C10: defining a name with the constant flag set marks it in the
scope's `constants` map; any later `define` of the same name in that
scope — the constant flag clear included — overwrites the stored
value yet leaves the marker in place, so an `assign` to that name in
that scope still fails as a constant reassignment. -/
theorem C10_const_marker_survives_redefine :
    (∀ (env : Environment) (n : String) (v : LiteralValue),
        alistGet (env.define n v true).constants n = some true) ∧
    (∀ (env : Environment) (n : String) (w u : LiteralValue) (c : Bool),
        alistGet env.constants n = some true →
        alistGet (env.define n w c).constants n = some true ∧
        (env.define n w c).get n = some w ∧
        (env.define n w c).assign n u = (false, env.define n w c)) := by
  constructor
  · intro env n v
    cases env <;> simp [Environment.define, Environment.constants, alistGet_insert_self]
  · intro env n w u c h
    refine ⟨?_, ?_, ?_⟩
    · cases env <;> cases c <;>
        simp_all [Environment.define, Environment.constants, alistGet_insert_self]
    · cases env <;> simp [Environment.define, Environment.get, alistGet_insert_self]
    · have hmark : alistGet (env.define n w c).constants n = some true := by
        cases env <;> cases c <;>
          simp_all [Environment.define, Environment.constants, alistGet_insert_self]
      cases henv : env.define n w c with
      | root vs' cs' =>
          rw [henv] at hmark
          simp only [Environment.constants] at hmark
          simp [Environment.assign, hmark]
      | child vs' cs' enc' =>
          rw [henv] at hmark
          simp only [Environment.constants] at hmark
          simp [Environment.assign, hmark]

/-- Witness for C10: `k` defined constant as `1`, then redefined
non-constantly as `2`; the marker survives, `get` sees `2`, and an
assignment of `3` fails. -/
theorem C10_const_marker_survives_redefine_witness :
    alistGet ((Environment.new.define "k" (.Number 1) true).define "k" (.Number 2) false).constants
        "k" = some true ∧
    ((Environment.new.define "k" (.Number 1) true).define "k" (.Number 2) false).get "k" =
        some (.Number 2) ∧
    ((Environment.new.define "k" (.Number 1) true).define "k" (.Number 2) false).assign "k"
        (.Number 3) =
      (false, (Environment.new.define "k" (.Number 1) true).define "k" (.Number 2) false) :=
  C10_const_marker_survives_redefine.2 (Environment.new.define "k" (.Number 1) true)
    "k" (.Number 2) (.Number 3) false rfl

/-! ## Claim C4: value equality -/

/-- C4 counterexample: equality is not reflexive — comparing the
empty array with itself falls into the catch-all arm of `PartialEq`
and yields `false`. -/
theorem C4_eq_counterexample :
    LiteralValue.lvEq (.Array []) (.Array []) = false := rfl

/-- C4 amended: equality is reflexive on the `Number`, `StringValue`,
`True`, `False`, `Nil` and `Callable` variants, but an `Array`,
`StructDef` or `StructInst` value compares `false` even with itself;
cross-variant comparison always yields `false` and never an error;
`Number 3 == Number 3` and `Nil == Nil` hold; and equality of two
`Callable`s is exactly name-and-arity equality, regardless of
behaviour. -/
theorem C4_eq_amended :
    (∀ v : LiteralValue,
        v.variantTag ≠ 0 → v.variantTag ≠ 7 → v.variantTag ≠ 8 →
        LiteralValue.lvEq v v = true) ∧
    (∀ v : LiteralValue,
        v.variantTag = 0 ∨ v.variantTag = 7 ∨ v.variantTag = 8 →
        LiteralValue.lvEq v v = false) ∧
    (∀ v w : LiteralValue,
        v.variantTag ≠ w.variantTag → LiteralValue.lvEq v w = false) ∧
    LiteralValue.lvEq (.Number 3) (.Number 3) = true ∧
    LiteralValue.lvEq .Nil .Nil = true ∧
    (∀ (n : String) (a : Int) (i : FunImpl) (n2 : String) (a2 : Int) (i2 : FunImpl),
        LiteralValue.lvEq (.Callable n a i) (.Callable n2 a2 i2) = ((n == n2) && (a == a2))) := by
  refine ⟨?_, ?_, ?_, by simp [LiteralValue.lvEq], rfl, fun _ _ _ _ _ _ => rfl⟩
  · intro v h0 h7 h8
    cases v <;> simp_all [LiteralValue.lvEq, LiteralValue.variantTag]
  · intro v h
    cases v <;> simp_all [LiteralValue.lvEq, LiteralValue.variantTag]
  · intro v w h
    cases v <;> cases w <;> simp_all [LiteralValue.lvEq, LiteralValue.variantTag]

/-- Witness for C4, applying the reflexivity conjunct at the concrete
value `Number 2`. -/
theorem C4_eq_amended_witness : LiteralValue.lvEq (.Number 2) (.Number 2) = true :=
  C4_eq_amended.1 (.Number 2) (by decide) (by decide) (by decide)

/-! ## Claim C5: the unary `!` operator -/

/-- C5 counterexample: a `!` applied to an `Array` operand — a
variant other than `Callable` — does not succeed: it aborts through
the `todo!()` arm of `is_falsy`. -/
theorem C5_bang_counterexample :
    evaluate 2 (.Unary .Bang (.Literal (.Array []))) Environment.new =
      .error (.panicked "not yet implemented") := rfl

/-- C5 amended: `!` on an operand of variant `Number`, `StringValue`,
`True`, `False` or `Nil` succeeds and returns the operand's
`is_falsy` value, which is the negation of its truthiness for every
such variant except `Nil` — there both `!nil` and `nil`'s truthiness
are `False`; a `Callable` operand is a fatal abort, and so are the
`Array`, `StructDef` and `StructInst` operands, which hit the
`todo!()` arm. -/
theorem C5_bang_amended :
    ∀ (fuel : Nat) (e : Expr) (env env1 : Environment) (v : LiteralValue),
      evaluate fuel e env = .ok (v, env1) →
      ((v.variantTag = 2 ∨ v.variantTag = 3 ∨ v.variantTag = 4 ∨ v.variantTag = 5 ∨
          v.variantTag = 6) →
        ∃ b, LiteralValue.is_falsy v = .ok b ∧
          evaluate (fuel + 1) (.Unary .Bang e) env = .ok (b, env1) ∧
          (v ≠ .Nil → ∃ t, LiteralValue.is_truthy v = .ok t ∧
            ((b = .True ∧ t = .False) ∨ (b = .False ∧ t = .True))) ∧
          (v = .Nil → b = .False ∧ LiteralValue.is_truthy v = .ok .False)) ∧
      (v.variantTag = 1 →
        evaluate (fuel + 1) (.Unary .Bang e) env =
          .error (.panicked "Can not use callable as falsy value")) ∧
      ((v.variantTag = 0 ∨ v.variantTag = 7 ∨ v.variantTag = 8) →
        evaluate (fuel + 1) (.Unary .Bang e) env =
          .error (.panicked "not yet implemented")) := by
  intro fuel e env env1 v h
  have hU : evaluate (fuel + 1) (.Unary .Bang e) env =
      (match LiteralValue.is_falsy v with
       | .ok b => .ok (b, env1)
       | .error er => .error er) := by
    simp [evaluate, h]
    cases hf : LiteralValue.is_falsy v <;> simp [bind, Except.bind, hf]
  refine ⟨?_, ?_, ?_⟩
  · intro hv
    cases v with
    | Number x =>
        refine ⟨if x == 0 then .True else .False, rfl, by rw [hU]; rfl, ?_, by intro hn; cases hn⟩
        intro _
        refine ⟨if x == 0 then .False else .True, rfl, ?_⟩
        by_cases hx : x == 0 <;> simp [hx]
    | StringValue s =>
        refine ⟨if s.length == 0 then .True else .False, rfl, by rw [hU]; rfl, ?_,
          by intro hn; cases hn⟩
        intro _
        refine ⟨if s.length == 0 then .False else .True, rfl, ?_⟩
        by_cases hs : s.length == 0 <;> simp [hs]
    | True => exact ⟨.False, rfl, by rw [hU]; rfl, fun _ => ⟨.True, rfl, Or.inr ⟨rfl, rfl⟩⟩,
        by intro hn; cases hn⟩
    | False => exact ⟨.True, rfl, by rw [hU]; rfl, fun _ => ⟨.False, rfl, Or.inl ⟨rfl, rfl⟩⟩,
        by intro hn; cases hn⟩
    | Nil => exact ⟨.False, rfl, by rw [hU]; rfl, fun hn => absurd rfl hn, fun _ => ⟨rfl, rfl⟩⟩
    | _ => simp_all [LiteralValue.variantTag]
  · intro hv
    cases v <;> simp_all [LiteralValue.variantTag]
    rfl
  · intro hv
    cases v <;> simp_all [LiteralValue.variantTag] <;> rfl

/-- Witness for C5, applying the success conjunct at the operand
`Number 1` (whose `!` is `False`) and the panic conjunct indirectly
through the hypotheses discharged at `fuel = 1`. -/
theorem C5_bang_amended_witness :
    ∃ b, LiteralValue.is_falsy (.Number 1) = .ok b ∧
      evaluate 2 (.Unary .Bang (.Literal (.Number 1))) Environment.new =
        .ok (b, Environment.new) ∧
      ((.Number 1 : LiteralValue) ≠ .Nil → ∃ t, LiteralValue.is_truthy (.Number 1) = .ok t ∧
        ((b = .True ∧ t = .False) ∨ (b = .False ∧ t = .True))) ∧
      ((.Number 1 : LiteralValue) = .Nil → b = .False ∧
        LiteralValue.is_truthy (.Number 1) = .ok .False) :=
  (C5_bang_amended 1 (.Literal (.Number 1)) Environment.new Environment.new (.Number 1) rfl).1
    (by decide)

/-! ## Claim C6: logical operators evaluate both operands -/

/-- Helper: a successful truthiness test yields one of the two boolean
values. -/
theorem is_truthy_ok_cases (v b : LiteralValue)
    (h : LiteralValue.is_truthy v = .ok b) : b = .True ∨ b = .False := by
  cases v <;> simp [LiteralValue.is_truthy] at h
  case Number x => split at h <;> simp_all
  case StringValue s => split at h <;> simp_all
  case True => simp [← h]
  case False => simp [← h]
  case Nil => simp [← h]

/-- C6: `or` and `and` do not short-circuit.  With the left operand
evaluated (and its truthiness defined), an error from the right
operand propagates even when the left operand alone already decides
the outcome; and when both operands evaluate (with defined
truthiness), the result is the Boolean combining the two truthiness
values — disjunction for `or`, conjunction for `and`. -/
theorem C6_logical_no_short_circuit :
    ∀ (fuel : Nat) (l r : Expr) (env env1 : Environment) (lv b1 : LiteralValue),
      evaluate fuel l env = .ok (lv, env1) →
      LiteralValue.is_truthy lv = .ok b1 →
      ((∀ er, evaluate fuel r env1 = .error er →
          evaluate (fuel + 1) (.Logical l .Or r) env = .error er ∧
          evaluate (fuel + 1) (.Logical l .And r) env = .error er) ∧
       (∀ (rv : LiteralValue) (env2 : Environment) (b2 : LiteralValue),
          evaluate fuel r env1 = .ok (rv, env2) →
          LiteralValue.is_truthy rv = .ok b2 →
          evaluate (fuel + 1) (.Logical l .Or r) env =
            .ok (LiteralValue.check_bool
                  (LiteralValue.lvEq b1 .True || LiteralValue.lvEq b2 .True), env2) ∧
          evaluate (fuel + 1) (.Logical l .And r) env =
            .ok (LiteralValue.check_bool
                  (LiteralValue.lvEq b1 .True && LiteralValue.lvEq b2 .True), env2))) := by
  intro fuel l r env env1 lv b1 hl ht
  constructor
  · intro er hr
    constructor <;> simp [evaluate, hl, ht, hr, bind, Except.bind]
  · intro rv env2 b2 hr hrt
    have hb1 := is_truthy_ok_cases lv b1 ht
    have hb2 := is_truthy_ok_cases rv b2 hrt
    rcases hb1 with h1 | h1 <;> rcases hb2 with h2 | h2 <;> subst h1 <;> subst h2 <;>
      constructor <;>
      simp [evaluate, hl, ht, hr, hrt, bind, Except.bind, LiteralValue.lvEq,
        LiteralValue.check_bool]

/-- Witness for C6 at `true or nil` and `true and nil` (both operands
evaluated, results `true` and `false`). -/
theorem C6_logical_no_short_circuit_witness :
    evaluate 2 (.Logical (.Literal .True) .Or (.Literal .Nil)) Environment.new =
      .ok (LiteralValue.check_bool
            (LiteralValue.lvEq .True .True || LiteralValue.lvEq .False .True),
          Environment.new) ∧
    evaluate 2 (.Logical (.Literal .True) .And (.Literal .Nil)) Environment.new =
      .ok (LiteralValue.check_bool
            (LiteralValue.lvEq .True .True && LiteralValue.lvEq .False .True),
          Environment.new) :=
  (C6_logical_no_short_circuit 1 (.Literal .True) (.Literal .Nil) Environment.new
      Environment.new .True .True rfl rfl).2 .Nil Environment.new .False rfl rfl

/-! ## Claim C7: array indexing -/

/-- C7 counterexample: the negative index `-1` on the non-empty array
`[10]` does not produce an error — Rust's saturating `as usize` cast
turns it into index `0`, so the first element is returned. -/
theorem C7_index_counterexample :
    evaluate 2 (.Index (.Literal (.Array [.Number 10])) (.Literal (.Number (-1))))
      Environment.new = .ok (.Number 10, Environment.new) := rfl

/-- C7 amended: indexing requires an `Array` target and a `Number`
index, anything else being an error; the numeric index is converted
by Rust's saturating float-to-`usize` cast (truncation toward zero,
negative values clamped to `0` — so a negative index on a non-empty
array returns the first element instead of erroring); the converted
index is checked against the length, out of range being an error and
in range returning that element; and the arm itself never panics. -/
theorem C7_index_amended :
    (∀ (fuel : Nat) (aE iE : Expr) (env : Environment) (v : LiteralValue)
        (env1 : Environment) (w : LiteralValue) (env2 : Environment),
       evaluate fuel aE env = .ok (v, env1) →
       (∀ arr, v ≠ .Array arr) →
       evaluate fuel iE env1 = .ok (w, env2) →
       evaluate (fuel + 1) (.Index aE iE) env =
         .error (.err "Attempt to index a non-array value")) ∧
    (∀ (fuel : Nat) (aE iE : Expr) (env : Environment) (arr : List LiteralValue)
        (env1 : Environment) (w : LiteralValue) (env2 : Environment),
       evaluate fuel aE env = .ok (.Array arr, env1) →
       evaluate fuel iE env1 = .ok (w, env2) →
       (∀ q, w ≠ .Number q) →
       evaluate (fuel + 1) (.Index aE iE) env =
         .error (.err "Array index must be a number")) ∧
    (∀ (fuel : Nat) (aE iE : Expr) (env : Environment) (arr : List LiteralValue)
        (env1 : Environment) (q : ℚ) (env2 : Environment),
       evaluate fuel aE env = .ok (.Array arr, env1) →
       evaluate fuel iE env1 = .ok (.Number q, env2) →
       (∀ h : f32AsUsize q < arr.length,
          evaluate (fuel + 1) (.Index aE iE) env =
            .ok (arr.get ⟨f32AsUsize q, h⟩, env2)) ∧
       (arr.length ≤ f32AsUsize q →
          evaluate (fuel + 1) (.Index aE iE) env =
            .error (.err "Array index out of bounds"))) ∧
    (∀ (fuel : Nat) (aE iE : Expr) (env : Environment) (v : LiteralValue)
        (env1 : Environment) (w : LiteralValue) (env2 : Environment) (m : String),
       evaluate fuel aE env = .ok (v, env1) →
       evaluate fuel iE env1 = .ok (w, env2) →
       evaluate (fuel + 1) (.Index aE iE) env ≠ .error (.panicked m)) := by
  refine ⟨?_, ?_, ?_, ?_⟩
  · intro fuel aE iE env v env1 w env2 ha hv hi
    cases v <;> simp [evaluate, ha, hi, bind, Except.bind]
    exact absurd rfl (hv _)
  · intro fuel aE iE env arr env1 w env2 ha hi hw
    cases w <;> simp [evaluate, ha, hi, bind, Except.bind]
    exact absurd rfl (hw _)
  · intro fuel aE iE env arr env1 q env2 ha hi
    constructor
    · intro h
      simp [evaluate, ha, hi, bind, Except.bind, h]
    · intro h
      simp [evaluate, ha, hi, bind, Except.bind, Nat.not_lt_of_le h]
  · intro fuel aE iE env v env1 w env2 m ha hi
    cases v <;> simp [evaluate, ha, hi, bind, Except.bind]
    cases w <;> simp
    split <;> simp

/-- Witness for C7, applying the in-range conjunct: index `1` of
`[4, 9]` is `9`. -/
theorem C7_index_amended_witness :
    evaluate 2 (.Index (.Literal (.Array [.Number 4, .Number 9])) (.Literal (.Number 1)))
      Environment.new = .ok (.Number 9, Environment.new) :=
  ((C7_index_amended.2.2.1 1 (.Literal (.Array [.Number 4, .Number 9]))
      (.Literal (.Number 1)) Environment.new [.Number 4, .Number 9] Environment.new 1
      Environment.new rfl rfl).1 (by decide))

/-! ## Claim C9: binary plus and minus on numbers and strings -/

/-- C9: `+` adds two `Number`s, concatenates two `StringValue`s, and
concatenates a `String` with a `Number` in either order after
coercing the number to its textual form; `-` involving a
`StringValue` in any position fails with the domain error `"NaN"`;
in particular `"abc" + 5` is `"abc5"`, `5 + "abc"` is `"5abc"` and
`"abc" - 5` errors with `"NaN"`. -/
theorem C9_plus_minus :
    (∀ (fuel : Nat) (l r : Expr) (env env1 env2 : Environment) (x y : ℚ),
       evaluate fuel l env = .ok (.Number x, env1) →
       evaluate fuel r env1 = .ok (.Number y, env2) →
       evaluate (fuel + 1) (.Binary l .Plus r) env = .ok (.Number (x + y), env2)) ∧
    (∀ (fuel : Nat) (l r : Expr) (env env1 env2 : Environment) (s1 s2 : String),
       evaluate fuel l env = .ok (.StringValue s1, env1) →
       evaluate fuel r env1 = .ok (.StringValue s2, env2) →
       evaluate (fuel + 1) (.Binary l .Plus r) env = .ok (.StringValue (s1 ++ s2), env2)) ∧
    (∀ (fuel : Nat) (l r : Expr) (env env1 env2 : Environment) (s1 : String) (x : ℚ),
       evaluate fuel l env = .ok (.StringValue s1, env1) →
       evaluate fuel r env1 = .ok (.Number x, env2) →
       evaluate (fuel + 1) (.Binary l .Plus r) env =
         .ok (.StringValue (s1 ++ numToString x), env2)) ∧
    (∀ (fuel : Nat) (l r : Expr) (env env1 env2 : Environment) (s1 : String) (x : ℚ),
       evaluate fuel l env = .ok (.Number x, env1) →
       evaluate fuel r env1 = .ok (.StringValue s1, env2) →
       evaluate (fuel + 1) (.Binary l .Plus r) env =
         .ok (.StringValue (numToString x ++ s1), env2)) ∧
    (∀ (fuel : Nat) (l r : Expr) (env env1 env2 : Environment) (s1 : String) (x : ℚ),
       evaluate fuel l env = .ok (.StringValue s1, env1) →
       evaluate fuel r env1 = .ok (.Number x, env2) →
       evaluate (fuel + 1) (.Binary l .Minus r) env = .error (.err "NaN")) ∧
    (∀ (fuel : Nat) (l r : Expr) (env env1 env2 : Environment) (s1 : String) (x : ℚ),
       evaluate fuel l env = .ok (.Number x, env1) →
       evaluate fuel r env1 = .ok (.StringValue s1, env2) →
       evaluate (fuel + 1) (.Binary l .Minus r) env = .error (.err "NaN")) ∧
    (∀ (fuel : Nat) (l r : Expr) (env env1 env2 : Environment) (s1 s2 : String),
       evaluate fuel l env = .ok (.StringValue s1, env1) →
       evaluate fuel r env1 = .ok (.StringValue s2, env2) →
       evaluate (fuel + 1) (.Binary l .Minus r) env = .error (.err "NaN")) ∧
    evaluate 2 (.Binary (.Literal (.StringValue "abc")) .Plus (.Literal (.Number 5)))
      Environment.new = .ok (.StringValue "abc5", Environment.new) ∧
    evaluate 2 (.Binary (.Literal (.Number 5)) .Plus (.Literal (.StringValue "abc")))
      Environment.new = .ok (.StringValue "5abc", Environment.new) ∧
    evaluate 2 (.Binary (.Literal (.StringValue "abc")) .Minus (.Literal (.Number 5)))
      Environment.new = .error (.err "NaN") := by
  refine ⟨?_, ?_, ?_, ?_, ?_, ?_, ?_, rfl, rfl, rfl⟩ <;>
    (intro fuel l r env env1 env2 a b hl hr; simp [evaluate, hl, hr, bind, Except.bind])

/-- Witness for C9, applying the number-plus-number conjunct at
`2 + 3`. -/
theorem C9_plus_minus_witness :
    evaluate 2 (.Binary (.Literal (.Number 2)) .Plus (.Literal (.Number 3)))
      Environment.new = .ok (.Number (2 + 3), Environment.new) :=
  C9_plus_minus.1 1 (.Literal (.Number 2)) (.Literal (.Number 3)) Environment.new
    Environment.new Environment.new 2 3 rfl rfl

/-! ## Claim C8: struct instantiation validates its field set -/

/-- Helper: a successful run of the field loop produces exactly the
keys of the accumulator plus the supplied field names, and every
supplied field name is one the definition declares. -/
theorem structFieldsLoop_ok (fields : List (String × Expr)) :
    ∀ (fuel : Nat) (d : StructDefinition) (env : Environment)
      (acc out : List (String × LiteralValue)) (env' : Environment),
      structFieldsLoop fuel fields d env acc = .ok (out, env') →
      (∀ k, (alistGet out k).isSome ↔
          ((alistGet acc k).isSome ∨ k ∈ fields.map Prod.fst)) ∧
      (∀ kv ∈ fields, (alistGet d.fields kv.1).isSome) := by
  induction fields with
  | nil =>
      intro fuel d env acc out env' h
      cases fuel with
      | zero => simp [structFieldsLoop] at h
      | succ f =>
          simp [structFieldsLoop] at h
          obtain ⟨h1, _⟩ := h
          subst h1
          simp
  | cons hd tl ih =>
      intro fuel d env acc out env' h
      obtain ⟨field_name, expr⟩ := hd
      cases fuel with
      | zero => simp [structFieldsLoop] at h
      | succ f =>
          simp only [structFieldsLoop] at h
          match hdef : alistGet d.fields field_name with
          | none => rw [hdef] at h; simp at h
          | some expected_expr =>
              rw [hdef] at h
              simp only [bind, Except.bind] at h
              match h1 : evaluate f expr env with
              | .error e => rw [h1] at h; simp at h
              | .ok (value, env1) =>
                  rw [h1] at h
                  simp only at h
                  match h2 : evaluate f expected_expr env1 with
                  | .error e => rw [h2] at h; simp at h
                  | .ok (expected_value, env2) =>
                      rw [h2] at h
                      simp only at h
                      match h3 : LiteralValue.to_type value with
                      | .error e => rw [h3] at h; simp at h
                      | .ok tv =>
                          rw [h3] at h
                          simp only at h
                          match h4 : LiteralValue.to_type expected_value with
                          | .error e => rw [h4] at h; simp at h
                          | .ok te =>
                              rw [h4] at h
                              simp only at h
                              by_cases hty : tv ≠ te
                              · rw [if_pos hty] at h; simp at h
                              · rw [if_neg hty] at h
                                obtain ⟨ka, kb⟩ := ih f d env2
                                  (alistInsert acc field_name value) out env' h
                                constructor
                                · intro k
                                  rw [ka k, alistGet_insert_isSome]
                                  simp only [List.map_cons, List.mem_cons]
                                  tauto
                                · intro kv hkv
                                  rcases List.mem_cons.mp hkv with hkv | hkv
                                  · subst hkv; simp [hdef]
                                  · exact kb kv hkv

/-- Helper: a successful run of the field loop validated every
supplied field's type tag — for each supplied field there is a fuel,
a declared expression from the definition, and intermediate
environments under which the supplied expression and the declared
expression evaluate to values with the same `to_type` tag (the loop
errors on the first field whose tags differ). -/
theorem structFieldsLoop_types (fields : List (String × Expr)) :
    ∀ (fuel : Nat) (d : StructDefinition) (env : Environment)
      (acc out : List (String × LiteralValue)) (env' : Environment),
      structFieldsLoop fuel fields d env acc = .ok (out, env') →
      ∀ kv ∈ fields, ∃ (f : Nat) (ee : Expr) (envA env2 env3 : Environment)
          (value ev : LiteralValue) (t : String),
          alistGet d.fields kv.1 = some ee ∧
          evaluate f kv.2 envA = .ok (value, env2) ∧
          evaluate f ee env2 = .ok (ev, env3) ∧
          LiteralValue.to_type value = .ok t ∧
          LiteralValue.to_type ev = .ok t := by
  induction fields with
  | nil => intro fuel d env acc out env' h kv hkv; cases hkv
  | cons hd tl ih =>
      intro fuel d env acc out env' h kv hkv
      obtain ⟨field_name, expr⟩ := hd
      cases fuel with
      | zero => simp [structFieldsLoop] at h
      | succ f =>
          simp only [structFieldsLoop] at h
          match hdef : alistGet d.fields field_name with
          | none => rw [hdef] at h; simp at h
          | some expected_expr =>
              rw [hdef] at h
              simp only [bind, Except.bind] at h
              match h1 : evaluate f expr env with
              | .error e => rw [h1] at h; simp at h
              | .ok (value, env1) =>
                  rw [h1] at h
                  simp only at h
                  match h2 : evaluate f expected_expr env1 with
                  | .error e => rw [h2] at h; simp at h
                  | .ok (expected_value, env2) =>
                      rw [h2] at h
                      simp only at h
                      match h3 : LiteralValue.to_type value with
                      | .error e => rw [h3] at h; simp at h
                      | .ok tv =>
                          rw [h3] at h
                          simp only at h
                          match h4 : LiteralValue.to_type expected_value with
                          | .error e => rw [h4] at h; simp at h
                          | .ok te =>
                              rw [h4] at h
                              simp only at h
                              by_cases hty : tv ≠ te
                              · rw [if_pos hty] at h; simp at h
                              · rw [if_neg hty] at h
                                rcases List.mem_cons.mp hkv with hkv | hkv
                                · subst hkv
                                  refine ⟨f, expected_expr, env, env1, env2, value,
                                    expected_value, tv, hdef, h1, h2, h3, ?_⟩
                                  have hte : tv = te := not_ne_iff.mp hty
                                  rw [h4, hte]
                                · exact ih f d env2 (alistInsert acc field_name value)
                                    out env' h kv hkv

/-- Helper: a passing missing-field check means every definition
field name is present in the evaluated field map. -/
theorem missingFieldCheck_ok (defFields : List (String × Expr))
    (evaluated : List (String × LiteralValue))
    (h : missingFieldCheck defFields evaluated = .ok ()) :
    ∀ kv ∈ defFields, (alistGet evaluated kv.1).isSome := by
  induction defFields with
  | nil => intro kv hkv; cases hkv
  | cons hd tl ih =>
      intro kv hkv
      obtain ⟨k, e⟩ := hd
      simp only [missingFieldCheck] at h
      by_cases hk : (alistGet evaluated k).isSome
      · rw [if_pos hk] at h
        rcases List.mem_cons.mp hkv with hkv | hkv
        · subst hkv; exact hk
        · exact ih h kv hkv
      · rw [if_neg hk] at h; simp at h

/-- C8: struct-literal construction, stated as five conjuncts.
(1) A successful evaluation resolved the named `StructDefinition`
from the environment and produced a `StructInstance` carrying the
definition's name whose field-name set equals both the supplied
literal's field-name set and the definition's field-name set (no
missing, no extra fields), with every supplied field declared by the
definition and its evaluated value's type tag equal to the tag of the
definition's declared expression evaluated in the environment current
at that point.  (2) A name not bound to a `StructDef` is rejected.
(3) A supplied field name absent from the definition is rejected (the
loop errors when it reaches it, shown at the first field).  (4) A
definition field missing from the supplied literal makes success
impossible.  (5) A supplied field whose evaluated type tag differs
from the declared expression's tag is rejected (shown at the first
field, where the evaluation order is fixed). -/
theorem C8_struct_inst_field_set :
    (∀ (fuel : Nat) (name : String) (fields : List (String × Expr))
        (env : Environment) (v : LiteralValue) (env1 : Environment),
       evaluate (fuel + 1) (.StructInstE name fields) env = .ok (v, env1) →
       ∃ (d : StructDefinition) (flds : List (String × LiteralValue)),
         env.get name = some (.StructDef d) ∧
         v = .StructInst (.mk d.name flds) ∧
         (∀ k, (alistGet flds k).isSome ↔ k ∈ fields.map Prod.fst) ∧
         (∀ k, (alistGet flds k).isSome ↔ (alistGet d.fields k).isSome) ∧
         (∀ kv ∈ fields, (alistGet d.fields kv.1).isSome) ∧
         (∀ kv ∈ fields, ∃ (f : Nat) (ee : Expr) (envA env2 env3 : Environment)
             (value ev : LiteralValue) (t : String),
             alistGet d.fields kv.1 = some ee ∧
             evaluate f kv.2 envA = .ok (value, env2) ∧
             evaluate f ee env2 = .ok (ev, env3) ∧
             LiteralValue.to_type value = .ok t ∧
             LiteralValue.to_type ev = .ok t)) ∧
    (∀ (fuel : Nat) (name : String) (fields : List (String × Expr)) (env : Environment),
       (∀ d, env.get name ≠ some (.StructDef d)) →
       evaluate (fuel + 1) (.StructInstE name fields) env =
         .error (.err ("Struct definition '" ++ name ++ "' not found"))) ∧
    (∀ (fuel : Nat) (name k : String) (e : Expr) (rest : List (String × Expr))
        (env : Environment) (d : StructDefinition),
       env.get name = some (.StructDef d) →
       alistGet d.fields k = none →
       evaluate (fuel + 2) (.StructInstE name ((k, e) :: rest)) env =
         .error (.err ("Field '" ++ k ++ "' does not exist in struct definition '"
                       ++ d.name ++ "'"))) ∧
    (∀ (fuel : Nat) (name : String) (fields : List (String × Expr))
        (env : Environment) (d : StructDefinition) (kv : String × Expr),
       env.get name = some (.StructDef d) →
       kv ∈ d.fields →
       kv.1 ∉ fields.map Prod.fst →
       ∀ (v : LiteralValue) (env1 : Environment),
         evaluate (fuel + 1) (.StructInstE name fields) env ≠ .ok (v, env1)) ∧
    (∀ (fuel : Nat) (name k : String) (e : Expr) (rest : List (String × Expr))
        (env : Environment) (d : StructDefinition) (ee : Expr)
        (value : LiteralValue) (env1 : Environment) (ev : LiteralValue)
        (env2 : Environment) (tv te : String),
       env.get name = some (.StructDef d) →
       alistGet d.fields k = some ee →
       evaluate fuel e env = .ok (value, env1) →
       evaluate fuel ee env1 = .ok (ev, env2) →
       LiteralValue.to_type value = .ok tv →
       LiteralValue.to_type ev = .ok te →
       tv ≠ te →
       evaluate (fuel + 2) (.StructInstE name ((k, e) :: rest)) env =
         .error (.err ("Type mismatch for field '" ++ k ++ "'"))) := by
  refine ⟨?_, ?_, ?_, ?_, ?_⟩
  · intro fuel name fields env v env1 h
    simp only [evaluate] at h
    match hg : env.get name with
    | none => rw [hg] at h; simp at h
    | some (.StructDef d) =>
        rw [hg] at h
        simp only [bind, Except.bind] at h
        match hl : structFieldsLoop fuel fields d env [] with
        | .error e => rw [hl] at h; simp at h
        | .ok (out, env') =>
            rw [hl] at h
            simp only at h
            match hm : missingFieldCheck d.fields out with
            | .error e => rw [hm] at h; simp at h
            | .ok _ =>
                rw [hm] at h
                simp only [Except.ok.injEq, Prod.mk.injEq] at h
                obtain ⟨hv, _⟩ := h
                obtain ⟨ka, kb⟩ := structFieldsLoop_ok fields fuel d env [] out env' hl
                have htypes := structFieldsLoop_types fields fuel d env [] out env' hl
                refine ⟨d, out, rfl, hv.symm, ?_, ?_, kb, htypes⟩
                · intro k
                  rw [ka k]
                  simp [alistGet]
                · intro k
                  constructor
                  · intro hk
                    rcases (ka k).mp hk with hk | hk
                    · simp [alistGet] at hk
                    · obtain ⟨kv, hkv, hfst⟩ := List.mem_map.mp hk
                      subst hfst
                      exact kb kv hkv
                  · intro hk
                    obtain ⟨kv, hkv, hfst⟩ :=
                      List.mem_map.mp ((alistGet_isSome_iff_mem d.fields k).mp hk)
                    have := missingFieldCheck_ok d.fields out hm kv hkv
                    rw [hfst] at this
                    exact this
    | some (.Array _) => rw [hg] at h; simp at h
    | some (.Callable _ _ _) => rw [hg] at h; simp at h
    | some (.Number _) => rw [hg] at h; simp at h
    | some (.StringValue _) => rw [hg] at h; simp at h
    | some .True => rw [hg] at h; simp at h
    | some .False => rw [hg] at h; simp at h
    | some .Nil => rw [hg] at h; simp at h
    | some (.StructInst _) => rw [hg] at h; simp at h
  · intro fuel name fields env hno
    cases hg : env.get name with
    | none => simp [evaluate, hg]
    | some val =>
        cases val with
        | StructDef d => exact absurd hg (hno d)
        | Array a => simp [evaluate, hg]
        | Callable n a i => simp [evaluate, hg]
        | Number x => simp [evaluate, hg]
        | StringValue s => simp [evaluate, hg]
        | True => simp [evaluate, hg]
        | False => simp [evaluate, hg]
        | Nil => simp [evaluate, hg]
        | StructInst i => simp [evaluate, hg]
  · intro fuel name k e rest env d hg hdef
    simp [evaluate, structFieldsLoop, hg, hdef, bind, Except.bind]
  · intro fuel name fields env d kv hg hkv hnot v env1 h
    simp only [evaluate] at h
    rw [hg] at h
    simp only [bind, Except.bind] at h
    match hl : structFieldsLoop fuel fields d env [] with
    | .error e => rw [hl] at h; simp at h
    | .ok (out, env') =>
        rw [hl] at h
        simp only at h
        match hm : missingFieldCheck d.fields out with
        | .error e => rw [hm] at h; simp at h
        | .ok _ =>
            have hsome := missingFieldCheck_ok d.fields out hm kv hkv
            obtain ⟨ka, _⟩ := structFieldsLoop_ok fields fuel d env [] out env' hl
            rw [ka kv.1] at hsome
            simp [alistGet] at hsome
            obtain ⟨x, hx⟩ := hsome
            exact hnot (List.mem_map.mpr ⟨(kv.1, x), hx, rfl⟩)
  · intro fuel name k e rest env d ee value env1 ev env2 tv te hg hdef h1 h2 h3 h4 hty
    simp [evaluate, structFieldsLoop, hg, hdef, h1, h2, h3, h4, hty, bind, Except.bind]

/-- Concrete environment for the C8 witness: a definition `P` with
one declared field `a` of number type. -/
def envC8 : Environment :=
  Environment.new.define "P" (.StructDef (.mk "P" [("a", .Literal (.Number 0))])) false

/-- Witness for C8, applying the type-mismatch rejection conjunct to
the concrete instantiation `P { a: "x" }`, whose field `a` is declared
with a `Number`-typed expression: construction is rejected. -/
theorem C8_struct_inst_field_set_witness :
    evaluate 3 (.StructInstE "P" [("a", .Literal (.StringValue "x"))]) envC8 =
      .error (.err ("Type mismatch for field '" ++ "a" ++ "'")) :=
  C8_struct_inst_field_set.2.2.2.2 1 "P" "a" (.Literal (.StringValue "x")) [] envC8
    (.mk "P" [("a", .Literal (.Number 0))]) (.Literal (.Number 0)) (.StringValue "x")
    envC8 (.Number 0) envC8 "String" "Number" rfl rfl rfl rfl rfl rfl (by decide)

/-! ## Claim C1: what a Return statement actually does -/

/-- Body of the function `add(a, b)` from the repository's own test
`test_function_declaration_and_call`: a single `return a + b;`. -/
def addBody : List Stmt :=
  [.ReturnStmt (some (.Binary (.Variable "a") .Plus (.Variable "b")))]

/-- Environment after declaring `add`: the callable closing over the
parameters and body, defined in the global scope. -/
def addEnv : Environment :=
  Environment.new.define "add" (.Callable "add" 2 (.userFun ["a", "b"] addBody)) false

/-- C1: evaluation of the failing input.  Declaring
`fn add(a, b) { return a + b; }` and calling `add(5, 3)` — the exact
program the repository's test `test_function_declaration_and_call`
builds and asserts to equal `Number 8` — produces `Nil`: the
`Stmt::ReturnStmt` arm evaluates `a + b`, binds it to a local and
drops it, no control-flow signal exists anywhere in the interpreter,
and the call's fallback result (the last body statement when it is an
`Expression`, else `Nil`) is `Nil` here.  The third conjunct shows a
`Return` does not even skip the statements after it: the variable
`x` is still defined by the statement following `return 1`. -/
theorem C1_return_value_discarded :
    interpret 2 [.FuncStmt "add" ["a", "b"] addBody] Environment.new = .ok addEnv ∧
    evaluate 9 (.Call (.Variable "add") [.Literal (.Number 5), .Literal (.Number 3)]) addEnv =
      .ok (.Nil, addEnv) ∧
    interpret 3 [.ReturnStmt (some (.Literal (.Number 1))), .Var "x" (.Literal (.Number 2))]
      Environment.new = .ok (Environment.new.define "x" (.Number 2) false) :=
  ⟨rfl, rfl, rfl⟩

end Recolon
